import Mathlib

/-!
Verification of the Page Selection & Incremental Pagination Engine of the
pdf_manager_py repository. The definitions below are a shallow embedding of
`client/src/App.jsx`: the pattern parser `parsePagePattern`, the selection
reconciliation and slice-request construction done by `handleSlice`, and the
pagination state machine formed by `handleSelectDocument`, `loadMorePages`,
`handleDeleteDocument` and the fetch continuations they install. JavaScript
strings are modelled as `List Char`, JS numbers occurring here as `Nat`/`Int`
(all arithmetic in range), `Number.parseInt(s, 10)` as `jsParseInt`, the JS
falsy-`||` on counts as `jsOr`, and `Set` accumulation as insertion-ordered
duplicate-free lists built by `setAdd`.
-/

deriving instance DecidableEq for Except

namespace PdfManager

/-! ## JavaScript string and number primitives -/

/-- JS `s.split(sep)` for a one-character separator: every occurrence splits,
adjacent separators yield empty parts, and the empty string yields `[[]]`. -/
def splitOnChar (sep : Char) : List Char → List (List Char)
  | [] => [[]]
  | c :: cs =>
    let rest := splitOnChar sep cs
    if c = sep then [] :: rest
    else
      match rest with
      | [] => [[c]]
      | piece :: pieces => (c :: piece) :: pieces

/-- JS `s.trim()`: strip leading and trailing whitespace. -/
def jsTrim (s : List Char) : List Char :=
  ((s.dropWhile Char.isWhitespace).reverse.dropWhile Char.isWhitespace).reverse

/-- JS `s.replace(oldC, newC)` with one-character string arguments: only the
FIRST occurrence is replaced. -/
def replaceFirst (oldC newC : Char) : List Char → List Char
  | [] => []
  | c :: cs => if c = oldC then newC :: cs else c :: replaceFirst oldC newC cs

/-- Decimal value of a digit list. -/
def digitsToNat (ds : List Char) : Nat :=
  ds.foldl (fun acc c => acc * 10 + (c.toNat - 48)) 0

/-- The longest leading run of decimal digits, `none` when it is empty. -/
def parseDigits (s : List Char) : Option Nat :=
  let ds := s.takeWhile Char.isDigit
  if ds = [] then none else some (digitsToNat ds)

/-- JS `Number.parseInt(s, 10)`: skip leading whitespace, read an optional
sign, then the longest run of decimal digits; `none` models `NaN` (no digits).
Trailing non-digit characters are ignored, so `parseInt("3x") = 3`. -/
def jsParseInt (s : List Char) : Option Int :=
  match s.dropWhile Char.isWhitespace with
  | '-' :: rest => (parseDigits rest).map (fun n => -(n : Int))
  | '+' :: rest => (parseDigits rest).map (fun n => (n : Int))
  | rest => (parseDigits rest).map (fun n => (n : Int))

/-- JS `a || b` on counts where `0` (and absent, which we encode as `0`) is
falsy. -/
def jsOr (a b : Nat) : Nat := if a = 0 then b else a

/-! ## PatternParser (`parsePagePattern`, App.jsx lines 147-194) -/

/-- The distinct error messages `parsePagePattern` can return, one constructor
per message template of the source, carrying exactly what the template
interpolates. -/
inductive ParseError where
  /-- "Введите хотя бы одну страницу или диапазон." -/
  | emptyPattern
  /-- "Неверный диапазон "{entry}"." -/
  | invalidRange (token : String)
  /-- "Диапазон "{entry}" вне допустимых границ." -/
  | rangeOutOfOrder (token : String)
  /-- "Документ содержит только {maxPages} страниц(ы)." -/
  | rangeExceedsDocument (maxPages : Int)
  /-- "Неверный номер страницы "{entry}"." -/
  | invalidPageNumber (token : String)
  /-- "Страница {pageNumber} вне диапазона документа." -/
  | pageOutOfRange (value : Int)
  /-- "Введите корректные страницы для вырезания." -/
  | noPagesSelected
deriving DecidableEq

/-- JS `Set.add`: append unless already present (insertion order, no
duplicates). -/
def setAdd (acc : List Int) (x : Int) : List Int :=
  if x ∈ acc then acc else acc ++ [x]

/-- The pages the loop `for (page = startPage; page <= endPage; page += 1)`
visits: `startPage, startPage+1, ..., endPage` (empty when `endPage <
startPage`, though the source only reaches it with `startPage ≤ endPage`). -/
def rangePages (startPage endPage : Int) : List Int :=
  (List.range ((endPage - startPage).toNat + 1)).map
    (fun i => startPage + Int.ofNat i)

/-- `entry.replace('–', '-')`: normalize the first en-dash to a hyphen. -/
def normalizeEntry (entry : List Char) : List Char :=
  replaceFirst '–' '-' entry

/-- The destructuring `[rawStart, rawEnd] = normalized.split('-').map(trim)`:
only the first two (trimmed) parts are kept; a missing second part is the
empty string (JS `undefined` also parses to `NaN`, as the empty string does). -/
def rangeTokenParts (normalized : List Char) : List Char × List Char :=
  let parts := (splitOnChar '-' normalized).map jsTrim
  (parts.getD 0 [], parts.getD 1 [])

/-- The body of the `for (const entry of entries)` loop of `parsePagePattern`:
processes one comma-separated token against the accumulated page set. -/
def processEntry (maxPages : Int) (acc : List Int) (entry : List Char) :
    Except ParseError (List Int) :=
  let normalized := normalizeEntry entry
  if normalized.contains '-' then
    let rawStart := (rangeTokenParts normalized).1
    let rawEnd := (rangeTokenParts normalized).2
    match jsParseInt rawStart, jsParseInt rawEnd with
    | some startPage, some endPage =>
      if startPage < 1 ∨ endPage < startPage then
        .error (.rangeOutOfOrder (String.mk entry))
      else if endPage > maxPages then
        .error (.rangeExceedsDocument maxPages)
      else
        .ok ((rangePages startPage endPage).foldl setAdd acc)
    | _, _ => .error (.invalidRange (String.mk entry))
  else
    match jsParseInt normalized with
    | none => .error (.invalidPageNumber (String.mk entry))
    | some pageNumber =>
      if pageNumber < 1 ∨ pageNumber > maxPages then
        .error (.pageOutOfRange pageNumber)
      else
        .ok (setAdd acc pageNumber)

/-- JS `Array.sort((a, b) => a - b)` on the deduplicated page array: ascending
numeric order (insertion sort computes the same ascending arrangement). -/
def sortAsc (l : List Int) : List Int :=
  l.insertionSort (fun a b => a ≤ b)

/-- The `for (const entry of entries)` loop with its early `return` on the
first failing token. -/
def processEntries (maxPages : Int) (acc : List Int) :
    List (List Char) → Except ParseError (List Int)
  | [] => .ok acc
  | e :: es =>
    match processEntry maxPages acc e with
    | .error err => .error err
    | .ok acc2 => processEntries maxPages acc2 es

/-- The token list `pattern.split(',').map(trim).filter(Boolean)`. -/
def parseEntries (pattern : String) : List (List Char) :=
  ((splitOnChar ',' pattern.toList).map jsTrim).filter (fun e => !e.isEmpty)

/-- `parsePagePattern(pattern, maxPages)` of App.jsx: split on commas, trim,
drop empty tokens, process each token into an accumulated page set, and
return it sorted ascending. -/
def parsePagePattern (pattern : String) (maxPages : Int) :
    Except ParseError (List Int) :=
  if parseEntries pattern = [] then .error .emptyPattern
  else
    match processEntries maxPages [] (parseEntries pattern) with
    | .error e => .error e
    | .ok collected =>
      if collected = [] then .error .noPagesSelected
      else .ok (sortAsc collected)

/-! ## SelectionReconciler and SliceRequestBuilder (`handleSlice`,
App.jsx lines 196-228) -/

/-- The combination `Array.from(new Set([...parsed.pages, ...explicitPages]))
.sort((a, b) => a - b)` of `handleSlice`: union of the parsed set and the
clicked set, deduplicated in insertion order, then sorted ascending. -/
def reconcile (parsed clicked : List Int) : List Int :=
  sortAsc ((parsed ++ clicked).foldl setAdd [])

/-- The last element of `x :: xs`, i.e. `combinedPages[combinedPages.length - 1]`. -/
def lastD (x : Int) : List Int → Int
  | [] => x
  | y :: ys => lastD y ys

/-- The wire payload of `sliceDocument(selectedDocumentId, payloadStart,
payloadEnd, combinedPages)`. -/
structure SliceRequest where
  startPage : Int
  endPage : Int
  explicitPages : List Int
deriving DecidableEq

/-- The validation failure of the builder: "Введите номера страниц или
выберите их кликом." when the combined selection is empty. -/
inductive SliceError where
  | nothingSelected
deriving DecidableEq

/-- The request construction of `handleSlice`: reject an empty combined
selection, otherwise take the first and last elements of the (sorted)
combined list as the range bounds and the full list as the explicit pages. -/
def buildSliceRequest : List Int → Except SliceError SliceRequest
  | [] => .error .nothingSelected
  | x :: xs => .ok ⟨x, lastD x xs, x :: xs⟩

/-! ## PaginationController state machine
(`handleSelectDocument` lines 53-82, `loadMorePages` lines 114-145,
`handleDeleteDocument` lines 84-100, `togglePageSelection` lines 102-112,
`handleSlice` lines 196-228 of App.jsx)

The React component is single-threaded and event-driven: user events and
network completions interleave, and each handler between two `await`s runs
atomically. We model the session as an explicit state record plus a step
relation over events. An `await fetchPages(...)` splits a handler in two:
the synchronous part runs at issue time and appends a `FetchReq` (tagged
with the values the closure captured) to the list of in-flight requests;
a later `resolve`/`fetchFail` event removes the request and runs its
continuation against the then-current state, exactly as the promise
continuation does. `fetchLog` is a ghost field recording every fetch ever
issued; `sliceLog` a ghost field recording every successful slice call. -/

def PAGE_BATCH_SIZE : Nat := 8

/-- A stored document as listed by the collaborator (`doc_id`, `pages`
metadata; `pages = 0` encodes an absent/falsy page count). -/
structure Doc where
  doc_id : Nat
  pages : Nat
deriving DecidableEq

/-- One preview from a fetch response: its page number and an opaque image
payload (an id chosen by the event). -/
structure PreviewPage where
  index : Int
  data : Nat
deriving DecidableEq

/-- A `fetchPages` response: the batch and the reported total
(`total_pages = 0` encodes an absent/falsy total). -/
structure FetchResp where
  pages : List PreviewPage
  total_pages : Nat
deriving DecidableEq

/-- What the suspended half of a handler captured at `await` time. -/
inductive FetchCont where
  /-- The continuation of `handleSelectDocument`: captured `docId` and
  `targetDoc?.pages || 0`. -/
  | selectCont (docId : Nat) (targetDocPages : Nat)
  /-- The continuation of `loadMorePages`: captured `totalPageCount` and
  `activeDocument?.pages || 0`. -/
  | loadMoreCont (capturedTotal : Nat) (capturedActivePages : Nat)
deriving DecidableEq

/-- An in-flight `fetchPages(docId, offset, PAGE_BATCH_SIZE)` request. -/
structure FetchReq where
  docId : Nat
  offset : Nat
  batchSize : Nat
  cont : FetchCont
deriving DecidableEq

/-- The component state of `App` (the `useState` hooks), plus the in-flight
request list and the two ghost logs. -/
structure AppState where
  documents : List Doc
  selectedDocumentId : Option Nat
  pages : List PreviewPage
  selectedPages : List Int
  pagePattern : String
  statusMessage : String
  loadingPages : Bool
  pageOffset : Nat
  hasMorePages : Bool
  totalPageCount : Nat
  pending : List FetchReq
  fetchLog : List FetchReq
  sliceLog : List (Nat × SliceRequest)
deriving DecidableEq

/-- The initial hook values (`useState` defaults), with the document list
already loaded (the initial `loadDocuments` effect). -/
def initState (docs : List Doc) : AppState :=
  { documents := docs
    selectedDocumentId := none
    pages := []
    selectedPages := []
    pagePattern := "1"
    statusMessage := ""
    loadingPages := false
    pageOffset := 0
    hasMorePages := false
    totalPageCount := 0
    pending := []
    fetchLog := []
    sliceLog := [] }

/-- `documents.find(d => d.doc_id === docId)?.pages || 0`. -/
def docPagesOf (docs : List Doc) (docId : Nat) : Nat :=
  ((docs.find? (fun d => d.doc_id == docId)).map Doc.pages).getD 0

/-- `activeDocument?.pages || 0` as captured by `loadMorePages`. -/
def activeDocPages (s : AppState) : Nat :=
  match s.selectedDocumentId with
  | none => 0
  | some docId => docPagesOf s.documents docId

/-- The synchronous part of `handleSelectDocument(docId)`: bail out when the
document is already selected, otherwise reset the selection and pagination
window, seed the total and pattern from the document's listed page count, and
issue the initial fetch at offset 0. -/
def handleSelectDocument (s : AppState) (docId : Nat) : AppState :=
  if some docId = s.selectedDocumentId then s
  else
    let targetPages := docPagesOf s.documents docId
    let req : FetchReq :=
      ⟨docId, 0, PAGE_BATCH_SIZE, .selectCont docId targetPages⟩
    { s with
      selectedDocumentId := some docId
      selectedPages := []
      pages := []
      pageOffset := 0
      hasMorePages := false
      totalPageCount := targetPages
      pagePattern :=
        if targetPages ≠ 0 then "1-" ++ toString targetPages else "1"
      loadingPages := true
      pending := s.pending ++ [req]
      fetchLog := s.fetchLog ++ [req] }

/-- The synchronous part of `loadMorePages`: the in-flight/exhaustion guard
`if (!selectedDocumentId || loadingPages || !hasMorePages) return;`, then a
fetch at the current offset capturing `totalPageCount` and
`activeDocument?.pages`. -/
def loadMorePages (s : AppState) : AppState :=
  match s.selectedDocumentId with
  | none => s
  | some docId =>
    if s.loadingPages = true ∨ s.hasMorePages = false then s
    else
      let req : FetchReq :=
        ⟨docId, s.pageOffset, PAGE_BATCH_SIZE,
          .loadMoreCont s.totalPageCount (activeDocPages s)⟩
      { s with
        loadingPages := true
        pending := s.pending ++ [req]
        fetchLog := s.fetchLog ++ [req] }

/-- The promise continuation of whichever handler issued `req`, applied to the
state current at resolution time (the handlers check nothing about the active
document before applying a response). -/
def applyCont (s : AppState) (req : FetchReq) (resp : FetchResp) : AppState :=
  match req.cont with
  | .selectCont _ targetPages =>
    let resolvedTotal :=
      Nat.max (jsOr resp.total_pages
        (jsOr targetPages (jsOr resp.pages.length 1))) 1
    { s with
      pages := resp.pages
      totalPageCount := resolvedTotal
      pageOffset := resp.pages.length
      hasMorePages := decide (resp.pages.length < resolvedTotal)
      pagePattern := "1-" ++ toString resolvedTotal
      loadingPages := false }
  | .loadMoreCont capturedTotal capturedActivePages =>
    let resolvedTotal :=
      jsOr resp.total_pages (jsOr capturedTotal capturedActivePages)
    let updatedOffset := s.pageOffset + resp.pages.length
    { s with
      totalPageCount := jsOr resolvedTotal capturedTotal
      pages := s.pages ++ resp.pages
      pageOffset := updatedOffset
      hasMorePages :=
        if resp.pages.length = 0
            ∨ (resolvedTotal ≠ 0 ∧ updatedOffset ≥ resolvedTotal)
            ∨ (resolvedTotal = 0 ∧ resp.pages.length = 0)
            ∨ resp.pages.length < PAGE_BATCH_SIZE
        then false
        else s.hasMorePages
      loadingPages := false }

/-- Successful resolution of the `i`-th in-flight fetch: drop it from the
in-flight list and run its continuation. -/
def applyFetchSuccess (s : AppState) (i : Nat) (resp : FetchResp) : AppState :=
  match s.pending[i]? with
  | none => s
  | some req => applyCont { s with pending := s.pending.eraseIdx i } req resp

/-- Rejection of the `i`-th in-flight fetch: both handlers' `catch` blocks set
the status message and their `finally` blocks clear the loading flag; nothing
else changes. -/
def applyFetchFailure (s : AppState) (i : Nat) (msg : String) : AppState :=
  match s.pending[i]? with
  | none => s
  | some _ =>
    { s with
      pending := s.pending.eraseIdx i
      statusMessage := msg
      loadingPages := false }

/-- `togglePageSelection(pageNumber)`: remove the page if present, add it
otherwise. -/
def togglePageSelection (s : AppState) (pageNumber : Int) : AppState :=
  { s with
    selectedPages :=
      if pageNumber ∈ s.selectedPages then s.selectedPages.erase pageNumber
      else s.selectedPages ++ [pageNumber] }

/-- Rendering of a parse error to the status message the source sets. -/
def parseErrorMessage : ParseError → String
  | .emptyPattern => "Введите хотя бы одну страницу или диапазон."
  | .invalidRange t => "Неверный диапазон \"" ++ t ++ "\"."
  | .rangeOutOfOrder t => "Диапазон \"" ++ t ++ "\" вне допустимых границ."
  | .rangeExceedsDocument m =>
      "Документ содержит только " ++ toString m ++ " страниц(ы)."
  | .invalidPageNumber t => "Неверный номер страницы \"" ++ t ++ "\"."
  | .pageOutOfRange v => "Страница " ++ toString v ++ " вне диапазона документа."
  | .noPagesSelected => "Введите корректные страницы для вырезания."

/-- `handleSlice` with a successful `sliceDocument` call: guards, parse,
reconcile, build the request, then (on success) record the slice, set the
success message and clear the clicked set. The `loadDocuments()` refresh it
triggers is a further collaborator round-trip outside the claims' scope and
is not modelled. -/
def handleSlice (s : AppState) : AppState :=
  match s.selectedDocumentId with
  | none => s
  | some docId =>
    if s.totalPageCount = 0 then
      { s with statusMessage := "Сначала загрузите документ для просмотра страниц." }
    else
      let explicitPages := sortAsc s.selectedPages
      match parsePagePattern s.pagePattern
          (Int.ofNat (jsOr s.totalPageCount s.pages.length)) with
      | .error e => { s with statusMessage := parseErrorMessage e }
      | .ok parsed =>
        match buildSliceRequest (reconcile parsed explicitPages) with
        | .error _ =>
          { s with statusMessage := "Введите номера страниц или выберите их кликом." }
        | .ok req =>
          { s with
            statusMessage :=
              "Создана копия с " ++ toString req.explicitPages.length
                ++ " страницами."
            selectedPages := []
            sliceLog := s.sliceLog ++ [(docId, req)] }

/-- `handleDeleteDocument(docId)` with a successful `deleteDocument` call:
set the status message and, when the deleted document is the active one,
reset the selection and pagination window (the `loadDocuments()` refresh is
not modelled, as in `handleSlice`). -/
def handleDeleteDocument (s : AppState) (docId : Nat) : AppState :=
  let s1 := { s with statusMessage := "Document deleted" }
  if some docId = s.selectedDocumentId then
    { s1 with
      selectedDocumentId := none
      pages := []
      selectedPages := []
      totalPageCount := 0
      pageOffset := 0
      hasMorePages := false }
  else s1

/-- The observable events of one session: user interactions and network
completions, interleaving in any order. -/
inductive Event where
  | selectDoc (docId : Nat)
  | loadMoreTrigger
  | resolve (i : Nat) (resp : FetchResp)
  | fetchFail (i : Nat) (msg : String)
  | togglePage (pageNumber : Int)
  | sliceOk
  | deleteOk (docId : Nat)

/-- One step of the session. -/
def step (s : AppState) : Event → AppState
  | .selectDoc docId => handleSelectDocument s docId
  | .loadMoreTrigger => loadMorePages s
  | .resolve i resp => applyFetchSuccess s i resp
  | .fetchFail i msg => applyFetchFailure s i msg
  | .togglePage n => togglePageSelection s n
  | .sliceOk => handleSlice s
  | .deleteOk docId => handleDeleteDocument s docId

/-- A whole event sequence. -/
def run (s : AppState) (events : List Event) : AppState :=
  events.foldl step s

/-! ## Concrete scenarios used by the claims -/

/-- A batch of `count` preview pages with indices `first, first+1, ...` and
payload ids `tag, tag+1, ...` (the payload ids let distinct fetches be told
apart). -/
def mkBatch (first count tag : Nat) : List PreviewPage :=
  (List.range count).map (fun i => ⟨Int.ofNat (first + i), tag + i⟩)

/-- The exhaustion-by-short-batch scenario: one 19-page document; the three
fetch responses carry 8, 8 and 3 previews and never an explicit total
(`total_pages := 0`, the falsy/absent encoding); the document's listed page
count (19) seeds the provisional total. -/
def c3Docs : List Doc := [⟨1, 19⟩]

/-- Select the document, let its initial fetch resolve, then trigger and
resolve two more fetches; the third response is a short batch. -/
def c3Trace : List Event :=
  [ .selectDoc 1,
    .resolve 0 ⟨mkBatch 1 8 100, 0⟩,
    .loadMoreTrigger,
    .resolve 0 ⟨mkBatch 9 8 200, 0⟩,
    .loadMoreTrigger,
    .resolve 0 ⟨mkBatch 17 3 300, 0⟩ ]

/-- The state after the full exhaustion scenario. -/
def c3Final : AppState := run (initState c3Docs) c3Trace

/-- Two documents for the stale-response scenario: document 1 has 19 pages,
document 2 has 5. -/
def c4Docs : List Doc := [⟨1, 19⟩, ⟨2, 5⟩]

/-- The batch the superseded document-1 fetch eventually returns (its second
window, payload ids 110…117). -/
def c4StaleBatch : List PreviewPage := mkBatch 9 8 110

/-- Document 2's full preview batch (payload ids 210…214). -/
def c4DocBBatch : List PreviewPage := mkBatch 1 5 210

/-- Select document 1, load more (fetch in flight), switch to document 2,
let document 2's fetch resolve first, then let the superseded document-1
fetch resolve last. -/
def c4Trace : List Event :=
  [ .selectDoc 1,
    .resolve 0 ⟨mkBatch 1 8 100, 0⟩,
    .loadMoreTrigger,
    .selectDoc 2,
    .resolve 1 ⟨c4DocBBatch, 5⟩,
    .resolve 0 ⟨c4StaleBatch, 0⟩ ]

/-- The state after the stale-response scenario. -/
def c4Final : AppState := run (initState c4Docs) c4Trace

/-- A concrete mid-session state for the fetch-failure witness: document 1
selected, first batch loaded, a load-more fetch for offset 8 in flight. -/
def c5State : AppState :=
  { documents := [⟨1, 19⟩]
    selectedDocumentId := some 1
    pages := mkBatch 1 8 100
    selectedPages := []
    pagePattern := "1-19"
    statusMessage := ""
    loadingPages := true
    pageOffset := 8
    hasMorePages := true
    totalPageCount := 19
    pending := [⟨1, 8, PAGE_BATCH_SIZE, .loadMoreCont 19 19⟩]
    fetchLog := [⟨1, 0, PAGE_BATCH_SIZE, .selectCont 1 19⟩,
                 ⟨1, 8, PAGE_BATCH_SIZE, .loadMoreCont 19 19⟩]
    sliceLog := [] }

/-- Documents for the re-selection scenario. -/
def c8Docs : List Doc := [⟨1, 19⟩, ⟨2, 5⟩]

/-- Select document 1, then document 2, then document 1 again, with none of
the three initial fetches resolved yet. -/
def c8Trace : List Event := [.selectDoc 1, .selectDoc 2, .selectDoc 1]

/-- The state after the re-selection scenario. -/
def c8Final : AppState := run (initState c8Docs) c8Trace

/-- Events that are not a document selection: a single-document session after
the initial selection consists of these only. -/
def nonSelectEvent : Event → Bool
  | .selectDoc _ => false
  | _ => true

/-- The in-flight-guard invariant: at most one outstanding fetch, and none
once the loading flag is clear. -/
def PendingInv (s : AppState) : Prop :=
  s.pending.length ≤ 1 ∧ (s.loadingPages = false → s.pending = [])

/-- One 3-page document for the slice-success scenario. -/
def c9Docs : List Doc := [⟨1, 3⟩]

/-- Select the document, let its (complete) preview batch load, click page 2,
then slice successfully with the seeded pattern "1-3". -/
def c9Trace : List Event :=
  [.selectDoc 1, .resolve 0 ⟨mkBatch 1 3 100, 3⟩, .togglePage 2, .sliceOk]

/-- The state after the successful slice. -/
def c9Final : AppState := run (initState c9Docs) c9Trace

/-! ## Helper lemmas about the accumulating set and the sort -/

theorem setAdd_ne_nil (acc : List Int) (x : Int) : setAdd acc x ≠ [] := by
  unfold setAdd
  by_cases h : x ∈ acc
  · rw [if_pos h]
    intro hnil
    rw [hnil] at h
    exact absurd h (List.not_mem_nil x)
  · rw [if_neg h]
    simp

theorem foldl_setAdd_ne_nil :
    ∀ (l acc : List Int), acc ≠ [] → l.foldl setAdd acc ≠ []
  | [], _, h => by simpa using h
  | x :: xs, acc, _ => by
    rw [List.foldl_cons]
    exact foldl_setAdd_ne_nil xs _ (setAdd_ne_nil acc x)

theorem mem_setAdd {acc : List Int} {x y : Int} :
    y ∈ setAdd acc x ↔ y ∈ acc ∨ y = x := by
  unfold setAdd
  by_cases h : x ∈ acc
  · rw [if_pos h]
    constructor
    · exact Or.inl
    · rintro (hy | rfl)
      · exact hy
      · exact h
  · rw [if_neg h]
    simp

theorem mem_foldl_setAdd :
    ∀ (l acc : List Int) (y : Int),
      y ∈ l.foldl setAdd acc ↔ y ∈ acc ∨ y ∈ l
  | [], acc, y => by simp
  | x :: xs, acc, y => by
    rw [List.foldl_cons, mem_foldl_setAdd xs, mem_setAdd, List.mem_cons]
    tauto

theorem nodup_setAdd {acc : List Int} (x : Int) (h : acc.Nodup) :
    (setAdd acc x).Nodup := by
  unfold setAdd
  by_cases hx : x ∈ acc
  · rwa [if_pos hx]
  · rw [if_neg hx]
    simpa [List.nodup_append] using ⟨h, hx⟩

theorem nodup_foldl_setAdd :
    ∀ (l acc : List Int), acc.Nodup → (l.foldl setAdd acc).Nodup
  | [], _, h => by simpa using h
  | x :: xs, acc, h => by
    rw [List.foldl_cons]
    exact nodup_foldl_setAdd xs _ (nodup_setAdd x h)

theorem sortAsc_perm (l : List Int) : List.Perm (sortAsc l) l :=
  List.perm_insertionSort _ l

theorem sortAsc_sorted (l : List Int) : List.Sorted (· ≤ ·) (sortAsc l) :=
  List.sorted_insertionSort _ l

theorem sortAsc_ne_nil {l : List Int} (h : l ≠ []) : sortAsc l ≠ [] := by
  intro hs
  exact h ((sortAsc_perm l).symm.trans (hs ▸ List.Perm.refl _)).eq_nil

theorem mem_reconcile {p c : List Int} {x : Int} :
    x ∈ reconcile p c ↔ x ∈ p ∨ x ∈ c := by
  unfold reconcile
  rw [(sortAsc_perm _).mem_iff, mem_foldl_setAdd]
  simp

theorem reconcile_nodup (p c : List Int) : (reconcile p c).Nodup :=
  (sortAsc_perm _).nodup_iff.2 (nodup_foldl_setAdd _ _ List.nodup_nil)

theorem reconcile_sorted (p c : List Int) :
    List.Sorted (· ≤ ·) (reconcile p c) :=
  sortAsc_sorted _

theorem reconcile_sorted_lt (p c : List Int) :
    List.Sorted (· < ·) (reconcile p c) :=
  (reconcile_sorted p c).lt_of_le (reconcile_nodup p c)

theorem lastD_mem : ∀ (xs : List Int) (x : Int), lastD x xs ∈ x :: xs
  | [], x => by simp [lastD]
  | y :: ys, x => by
    rw [lastD]
    exact List.mem_cons_of_mem x (lastD_mem ys y)

theorem le_lastD :
    ∀ {xs : List Int} {x : Int}, List.Sorted (· ≤ ·) (x :: xs) →
      ∀ y ∈ x :: xs, y ≤ lastD x xs
  | [], x, _, y, hy => by
    simp at hy
    simp [hy, lastD]
  | z :: zs, x, h, y, hy => by
    rw [lastD]
    have htail : List.Sorted (· ≤ ·) (z :: zs) := h.of_cons
    rcases List.mem_cons.1 hy with rfl | hy2
    · have hxz : y ≤ z := List.rel_of_sorted_cons h z (List.mem_cons_self z zs)
      exact le_trans hxz (le_lastD htail z (List.mem_cons_self z zs))
    · exact le_lastD htail y hy2

/-! ## Helper lemmas about the parser loop -/

theorem rangePages_ne_nil (startPage endPage : Int) :
    rangePages startPage endPage ≠ [] := by
  unfold rangePages
  intro h
  have h2 := congrArg List.length h
  simp at h2

theorem processEntry_ok_ne_nil {maxPages : Int} {acc acc2 : List Int}
    {entry : List Char} (h : processEntry maxPages acc entry = .ok acc2) :
    acc2 ≠ [] := by
  by_cases hd : '-' ∈ normalizeEntry entry
  · cases hA : jsParseInt (rangeTokenParts (normalizeEntry entry)).1 with
    | none => simp [processEntry, hd, hA] at h
    | some a =>
      cases hB : jsParseInt (rangeTokenParts (normalizeEntry entry)).2 with
      | none => simp [processEntry, hd, hA, hB] at h
      | some b =>
        by_cases h1 : a < 1 ∨ b < a
        · simp [processEntry, hd, hA, hB, h1] at h
        · by_cases h2 : b > maxPages
          · simp [processEntry, hd, hA, hB, h1, h2] at h
          · simp [processEntry, hd, hA, hB, h1, h2] at h
            cases hrp : rangePages a b with
            | nil => exact absurd hrp (rangePages_ne_nil a b)
            | cons r rs =>
              rw [← h, hrp, List.foldl_cons]
              exact foldl_setAdd_ne_nil rs _ (setAdd_ne_nil acc r)
  · cases hA : jsParseInt (normalizeEntry entry) with
    | none => simp [processEntry, hd, hA] at h
    | some n =>
      by_cases h1 : n < 1 ∨ n > maxPages
      · simp [processEntry, hd, hA, h1] at h
      · simp [processEntry, hd, hA, h1] at h
        rw [← h]
        exact setAdd_ne_nil acc n


theorem processEntry_ne_noPagesSelected (maxPages : Int) (acc : List Int)
    (entry : List Char) :
    processEntry maxPages acc entry ≠ .error .noPagesSelected := by
  intro h
  unfold processEntry at h
  by_cases hd : '-' ∈ normalizeEntry entry
  · cases hA : jsParseInt (rangeTokenParts (normalizeEntry entry)).1 with
    | none => simp [hd, hA] at h
    | some a =>
      cases hB : jsParseInt (rangeTokenParts (normalizeEntry entry)).2 with
      | none => simp [hd, hA, hB] at h
      | some b =>
        by_cases h1 : a < 1 ∨ b < a
        · simp [hd, hA, hB, h1] at h
        · by_cases h2 : b > maxPages
          · simp [hd, hA, hB, h1, h2] at h
          · simp [hd, hA, hB, h1, h2] at h
  · cases hA : jsParseInt (normalizeEntry entry) with
    | none => simp [hd, hA] at h
    | some n =>
      by_cases h1 : n < 1 ∨ n > maxPages
      · simp [hd, hA, h1] at h
      · simp [hd, hA, h1] at h

theorem processEntries_ne_noPagesSelected (maxPages : Int) :
    ∀ (es : List (List Char)) (acc : List Int),
      processEntries maxPages acc es ≠ .error .noPagesSelected
  | [], acc => by simp [processEntries]
  | e :: es, acc => by
    rw [processEntries]
    cases hpe : processEntry maxPages acc e with
    | error err =>
      simp only [hpe]
      intro h
      have herr : err = .noPagesSelected := by
        cases h
        rfl
      exact processEntry_ne_noPagesSelected maxPages acc e (herr ▸ hpe)
    | ok acc2 =>
      simp only [hpe]
      exact processEntries_ne_noPagesSelected maxPages es acc2

theorem processEntries_ok_ne_nil (maxPages : Int) :
    ∀ (es : List (List Char)) (acc res : List Int),
      acc ≠ [] ∨ es ≠ [] → processEntries maxPages acc es = .ok res →
      res ≠ []
  | [], acc, res, hne, h => by
    rw [processEntries] at h
    injection h with h2
    subst h2
    rcases hne with h1 | h2
    · exact h1
    · exact absurd rfl h2
  | e :: es, acc, res, _, h => by
    rw [processEntries] at h
    cases hpe : processEntry maxPages acc e with
    | error err =>
      rw [hpe] at h
      exact absurd h (by simp)
    | ok acc2 =>
      rw [hpe] at h
      exact processEntries_ok_ne_nil maxPages es acc2 res
        (Or.inl (processEntry_ok_ne_nil hpe)) h

/-! ## Claim theorems: the parser, reconciliation and request building -/

theorem parsePagePattern_reference_inputs :
    parsePagePattern "1, 3-5, 10" 10 = .ok [1, 3, 4, 5, 10] ∧
    parsePagePattern "5-2" 10 = .error (.rangeOutOfOrder "5-2") ∧
    parsePagePattern "1-20" 10 = .error (.rangeExceedsDocument 10) ∧
    parsePagePattern "" 10 = .error .emptyPattern ∧
    parsePagePattern "abc" 10 = .error (.invalidPageNumber "abc") := by
  decide

theorem parsePagePattern_partial_tokens_accepted :
    parsePagePattern "1-2-3" 10 = .ok [1, 2] ∧
    parsePagePattern "1-2-3" 10 ≠ .error (.invalidRange "1-2-3") ∧
    parsePagePattern "3x" 10 = .ok [3] ∧
    parsePagePattern "3x" 10 ≠ .error (.invalidPageNumber "3x") := by
  decide

theorem processEntry_nan_errors (maxPages : Int) (acc : List Int)
    (entry : List Char) :
    ((normalizeEntry entry).contains '-' = true →
      (jsParseInt (rangeTokenParts (normalizeEntry entry)).1 = none ∨
        jsParseInt (rangeTokenParts (normalizeEntry entry)).2 = none) →
      processEntry maxPages acc entry =
        .error (.invalidRange (String.mk entry))) ∧
    ((normalizeEntry entry).contains '-' = false →
      jsParseInt (normalizeEntry entry) = none →
      processEntry maxPages acc entry =
        .error (.invalidPageNumber (String.mk entry))) := by
  constructor
  · intro hdash hnan
    have hd : '-' ∈ normalizeEntry entry := by
      simpa using hdash
    cases hA : jsParseInt (rangeTokenParts (normalizeEntry entry)).1 with
    | none =>
      cases hB : jsParseInt (rangeTokenParts (normalizeEntry entry)).2 with
      | none => simp [processEntry, hd, hA, hB]
      | some b => simp [processEntry, hd, hA, hB]
    | some a =>
      cases hB : jsParseInt (rangeTokenParts (normalizeEntry entry)).2 with
      | none => simp [processEntry, hd, hA, hB]
      | some b =>
        rcases hnan with hn | hn
        · rw [hA] at hn
          exact absurd hn (by simp)
        · rw [hB] at hn
          exact absurd hn (by simp)
  · intro hdash hnan
    have hd : '-' ∉ normalizeEntry entry := by
      simpa using hdash
    simp [processEntry, hd, hnan]

theorem reconcile_is_sorted_union (p c : List Int) :
    (∀ x : Int, x ∈ reconcile p c ↔ x ∈ p ∨ x ∈ c) ∧
    List.Sorted (fun a b => a < b) (reconcile p c) ∧
    reconcile [1, 2] [2, 3] = [1, 2, 3] :=
  ⟨fun _ => mem_reconcile, reconcile_sorted_lt p c, by decide⟩

theorem buildSliceRequest_bounds (p c : List Int) (r : SliceRequest)
    (h : buildSliceRequest (reconcile p c) = .ok r) :
    r.explicitPages = reconcile p c ∧
    r.startPage ∈ reconcile p c ∧
    r.endPage ∈ reconcile p c ∧
    (∀ x ∈ reconcile p c, r.startPage ≤ x ∧ x ≤ r.endPage) ∧
    buildSliceRequest [4] = .ok ⟨4, 4, [4]⟩ ∧
    buildSliceRequest [] = .error .nothingSelected := by
  have hsorted := reconcile_sorted p c
  cases hr : reconcile p c with
  | nil =>
    rw [hr] at h
    exact absurd h (by simp [buildSliceRequest])
  | cons x xs =>
    rw [hr] at h hsorted
    rw [buildSliceRequest] at h
    injection h with h2
    subst h2
    refine ⟨rfl, List.mem_cons_self x xs, lastD_mem xs x, ?_, by decide, by decide⟩
    intro y hy
    constructor
    · rcases List.mem_cons.1 hy with rfl | hy2
      · exact le_refl y
      · exact List.rel_of_sorted_cons hsorted y hy2
    · exact le_lastD hsorted y hy

theorem buildSliceRequest_bounds_witness :
    (⟨4, 4, [4]⟩ : SliceRequest).explicitPages = reconcile [4] [] ∧
    (⟨4, 4, [4]⟩ : SliceRequest).startPage ∈ reconcile [4] [] ∧
    (⟨4, 4, [4]⟩ : SliceRequest).endPage ∈ reconcile [4] [] ∧
    (∀ x ∈ reconcile [4] [],
      (⟨4, 4, [4]⟩ : SliceRequest).startPage ≤ x ∧
        x ≤ (⟨4, 4, [4]⟩ : SliceRequest).endPage) ∧
    buildSliceRequest [4] = .ok ⟨4, 4, [4]⟩ ∧
    buildSliceRequest [] = .error .nothingSelected :=
  buildSliceRequest_bounds [4] [] ⟨4, 4, [4]⟩ (by decide)

theorem parse_success_nonempty (pattern : String) (maxPages : Int) :
    parsePagePattern pattern maxPages ≠ .error .noPagesSelected ∧
    ∀ pages, parsePagePattern pattern maxPages = .ok pages → pages ≠ [] := by
  unfold parsePagePattern
  by_cases he : parseEntries pattern = []
  · rw [if_pos he]
    exact ⟨by simp, fun pages h => absurd h (by simp)⟩
  · rw [if_neg he]
    cases hp : processEntries maxPages [] (parseEntries pattern) with
    | error err =>
      refine ⟨?_, fun pages h => absurd h (by simp)⟩
      intro hcontra
      have herr : err = .noPagesSelected := by
        cases hcontra
        rfl
      exact processEntries_ne_noPagesSelected maxPages (parseEntries pattern)
        [] (herr ▸ hp)
    | ok collected =>
      have hcol : collected ≠ [] :=
        processEntries_ok_ne_nil maxPages (parseEntries pattern) [] collected
          (Or.inr he) hp
      dsimp only
      rw [if_neg hcol]
      refine ⟨by simp, fun pages h => ?_⟩
      have hps : pages = sortAsc collected := by
        cases h
        rfl
      subst hps
      exact sortAsc_ne_nil hcol

/-! ## Claim theorems: the pagination state machine -/

theorem pagination_short_batch_exhaustion :
    (run (initState c3Docs) (c3Trace.take 2)).hasMorePages = true ∧
    (run (initState c3Docs) (c3Trace.take 4)).hasMorePages = true ∧
    c3Final.hasMorePages = false ∧
    c3Final.pages.length = 19 ∧
    c3Final.pageOffset = 19 ∧
    c3Final.fetchLog.length = 3 ∧
    c3Final.pending = [] ∧
    step c3Final .loadMoreTrigger = c3Final := by
  decide

theorem stale_response_mutates_new_document :
    c4Final.selectedDocumentId = some 2 ∧
    c4Final.pages = c4DocBBatch ++ c4StaleBatch ∧
    c4Final.pageOffset = 13 ∧
    c4Final.totalPageCount = 19 := by
  decide

theorem fetch_failure_atomic (s : AppState) (i : Nat) (msg : String)
    (req : FetchReq) (h : s.pending[i]? = some req) :
    (step s (.fetchFail i msg)).pageOffset = s.pageOffset ∧
    (step s (.fetchFail i msg)).pages = s.pages ∧
    (step s (.fetchFail i msg)).hasMorePages = s.hasMorePages ∧
    (step s (.fetchFail i msg)).totalPageCount = s.totalPageCount ∧
    (step s (.fetchFail i msg)).selectedPages = s.selectedPages ∧
    (step s (.fetchFail i msg)).loadingPages = false ∧
    (step s (.fetchFail i msg)).statusMessage = msg ∧
    (step s (.fetchFail i msg)).fetchLog = s.fetchLog ∧
    (∀ d : Nat, s.selectedDocumentId = some d → s.hasMorePages = true →
      ∃ r : FetchReq,
        (step (step s (.fetchFail i msg)) .loadMoreTrigger).fetchLog =
          (step s (.fetchFail i msg)).fetchLog ++ [r] ∧
        r.offset = s.pageOffset ∧ r.docId = d) := by
  have hfail : step s (.fetchFail i msg) =
      { s with
        pending := s.pending.eraseIdx i
        statusMessage := msg
        loadingPages := false } := by
    simp only [step, applyFetchFailure, h]
  rw [hfail]
  refine ⟨rfl, rfl, rfl, rfl, rfl, rfl, rfl, rfl, ?_⟩
  intro d hsel hmore
  simp only [step, loadMorePages, hsel, hmore]
  exact ⟨_, rfl, rfl, rfl⟩

theorem fetch_failure_atomic_witness :
    (step c5State (.fetchFail 0 "Request failed")).pageOffset =
      c5State.pageOffset ∧
    (step c5State (.fetchFail 0 "Request failed")).pages = c5State.pages ∧
    (step c5State (.fetchFail 0 "Request failed")).hasMorePages =
      c5State.hasMorePages ∧
    (step c5State (.fetchFail 0 "Request failed")).totalPageCount =
      c5State.totalPageCount ∧
    (step c5State (.fetchFail 0 "Request failed")).selectedPages =
      c5State.selectedPages ∧
    (step c5State (.fetchFail 0 "Request failed")).loadingPages = false ∧
    (step c5State (.fetchFail 0 "Request failed")).statusMessage =
      "Request failed" ∧
    (step c5State (.fetchFail 0 "Request failed")).fetchLog =
      c5State.fetchLog ∧
    (∀ d : Nat, c5State.selectedDocumentId = some d →
      c5State.hasMorePages = true →
      ∃ r : FetchReq,
        (step (step c5State (.fetchFail 0 "Request failed"))
            .loadMoreTrigger).fetchLog =
          (step c5State (.fetchFail 0 "Request failed")).fetchLog ++ [r] ∧
        r.offset = c5State.pageOffset ∧ r.docId = d) :=
  fetch_failure_atomic c5State 0 "Request failed"
    ⟨1, 8, PAGE_BATCH_SIZE, .loadMoreCont 19 19⟩ rfl

/-! ## Helper lemmas for the in-flight-guard invariant -/

theorem eraseIdx_of_short {α : Type} (l : List α) (i : Nat)
    (h1 : l.length ≤ 1) {x : α} (h2 : l[i]? = some x) : l.eraseIdx i = [] := by
  cases l with
  | nil => simp at h2
  | cons a as =>
    cases as with
    | cons b bs => simp at h1
    | nil =>
      cases i with
      | zero => rfl
      | succ n => simp at h2

theorem applyCont_pending (s : AppState) (req : FetchReq) (resp : FetchResp) :
    (applyCont s req resp).pending = s.pending := by
  unfold applyCont
  cases hc : req.cont with
  | selectCont a b => rfl
  | loadMoreCont a b => rfl

theorem applyCont_loading (s : AppState) (req : FetchReq) (resp : FetchResp) :
    (applyCont s req resp).loadingPages = false := by
  unfold applyCont
  cases hc : req.cont with
  | selectCont a b => rfl
  | loadMoreCont a b => rfl

theorem handleSlice_pending (s : AppState) :
    (handleSlice s).pending = s.pending ∧
    (handleSlice s).loadingPages = s.loadingPages := by
  unfold handleSlice
  split
  · exact ⟨rfl, rfl⟩
  · split
    · exact ⟨rfl, rfl⟩
    · split
      · exact ⟨rfl, rfl⟩
      · dsimp only
        split
        · exact ⟨rfl, rfl⟩
        · exact ⟨rfl, rfl⟩

theorem pendingInv_step (s : AppState) (e : Event) (hInv : PendingInv s)
    (he : nonSelectEvent e = true) : PendingInv (step s e) := by
  obtain ⟨hlen, hidle⟩ := hInv
  cases e with
  | selectDoc d => simp [nonSelectEvent] at he
  | loadMoreTrigger =>
    cases hsel : s.selectedDocumentId with
    | none =>
      simp only [step, loadMorePages, hsel]
      exact ⟨hlen, hidle⟩
    | some d =>
      by_cases hg : s.loadingPages = true ∨ s.hasMorePages = false
      · simp only [step, loadMorePages, hsel, if_pos hg]
        exact ⟨hlen, hidle⟩
      · simp only [step, loadMorePages, hsel, if_neg hg]
        have hload : s.loadingPages = false := by
          rcases Bool.eq_false_or_eq_true s.loadingPages with h | h
          · exact absurd (Or.inl h) hg
          · exact h
        have hpend : s.pending = [] := hidle hload
        constructor
        · simp [hpend]
        · intro hcontra
          simp at hcontra
  | resolve i resp =>
    simp only [step, applyFetchSuccess]
    cases hp : s.pending[i]? with
    | none => exact ⟨hlen, hidle⟩
    | some req =>
      have herase : s.pending.eraseIdx i = [] := eraseIdx_of_short _ i hlen hp
      constructor
      · rw [applyCont_pending]
        simp [herase]
      · intro
        rw [applyCont_pending]
        simp [herase]
  | fetchFail i msg =>
    simp only [step, applyFetchFailure]
    cases hp : s.pending[i]? with
    | none => exact ⟨hlen, hidle⟩
    | some req =>
      have herase : s.pending.eraseIdx i = [] := eraseIdx_of_short _ i hlen hp
      constructor
      · simp [herase]
      · intro
        simp [herase]
  | togglePage n => exact ⟨hlen, hidle⟩
  | sliceOk =>
    obtain ⟨hp, hl⟩ := handleSlice_pending s
    constructor
    · rw [step, hp]
      exact hlen
    · rw [step, hp, hl]
      exact hidle
  | deleteOk d =>
    simp only [step, handleDeleteDocument]
    by_cases hd : some d = s.selectedDocumentId
    · rw [if_pos hd]
      exact ⟨hlen, hidle⟩
    · rw [if_neg hd]
      exact ⟨hlen, hidle⟩

theorem pendingInv_run :
    ∀ (tr : List Event) (s : AppState), PendingInv s →
      (∀ e ∈ tr, nonSelectEvent e = true) → PendingInv (run s tr)
  | [], s, hInv, _ => hInv
  | e :: tr, s, hInv, htr => by
    rw [run, List.foldl_cons]
    exact pendingInv_run tr (step s e)
      (pendingInv_step s e hInv (htr e (List.mem_cons_self e tr)))
      (fun e2 he2 => htr e2 (List.mem_cons_of_mem e he2))

theorem pendingInv_after_select (docs : List Doc) (d : Nat) :
    PendingInv (step (initState docs) (.selectDoc d)) := by
  constructor
  · simp [step, handleSelectDocument, initState]
  · intro hcontra
    simp [step, handleSelectDocument, initState] at hcontra

/-! ## C8: the counterexample and the amended guard theorem -/

theorem double_fetch_after_reselect :
    c8Final.selectedDocumentId = some 1 ∧
    (c8Final.pending.filter (fun r => r.docId == 1)).length = 2 := by
  decide

theorem loadMore_guard_and_single_doc_invariant :
    (∀ s : AppState, s.loadingPages = true ∨ s.hasMorePages = false →
      step s .loadMoreTrigger = s) ∧
    (∀ (docs : List Doc) (d : Nat) (tr : List Event),
      (∀ e ∈ tr, nonSelectEvent e = true) →
      (run (step (initState docs) (.selectDoc d)) tr).pending.length ≤ 1) := by
  constructor
  · intro s hguard
    cases hsel : s.selectedDocumentId with
    | none => simp only [step, loadMorePages, hsel]
    | some d => simp only [step, loadMorePages, hsel, if_pos hguard]
  · intro docs d tr htr
    exact (pendingInv_run tr _ (pendingInv_after_select docs d) htr).1



theorem slice_success_keeps_window :
    c9Final.sliceLog.length = 1 ∧
    c9Final.selectedPages = [] ∧
    c9Final.pages ≠ [] ∧
    c9Final.pageOffset = 3 ∧
    c9Final.totalPageCount = 3 ∧
    c9Final.pagePattern = "1-3" := by
  decide

theorem slice_and_delete_reset_frame :
    (∀ s : AppState, (step s .sliceOk).sliceLog ≠ s.sliceLog →
      (step s .sliceOk).selectedPages = [] ∧
      (step s .sliceOk).pages = s.pages ∧
      (step s .sliceOk).pageOffset = s.pageOffset ∧
      (step s .sliceOk).hasMorePages = s.hasMorePages ∧
      (step s .sliceOk).totalPageCount = s.totalPageCount ∧
      (step s .sliceOk).pagePattern = s.pagePattern) ∧
    (∀ (s : AppState) (d : Nat), s.selectedDocumentId = some d →
      (step s (.deleteOk d)).selectedDocumentId = none ∧
      (step s (.deleteOk d)).pages = [] ∧
      (step s (.deleteOk d)).selectedPages = [] ∧
      (step s (.deleteOk d)).totalPageCount = 0 ∧
      (step s (.deleteOk d)).pageOffset = 0 ∧
      (step s (.deleteOk d)).hasMorePages = false ∧
      (step s (.deleteOk d)).pagePattern = s.pagePattern) ∧
    (∀ (s : AppState) (d : Nat), some d ≠ s.selectedDocumentId →
      (step s (.selectDoc d)).pages = [] ∧
      (step s (.selectDoc d)).selectedPages = [] ∧
      (step s (.selectDoc d)).pageOffset = 0 ∧
      (step s (.selectDoc d)).hasMorePages = false) := by
  refine ⟨?_, ?_, ?_⟩
  · intro s h
    cases hsel : s.selectedDocumentId with
    | none =>
      simp only [step, handleSlice, hsel] at h
      exact absurd rfl h
    | some docId =>
      by_cases htot : s.totalPageCount = 0
      · simp only [step, handleSlice, hsel, if_pos htot] at h
        exact absurd rfl h
      · cases hp : parsePagePattern s.pagePattern
            (Int.ofNat (jsOr s.totalPageCount s.pages.length)) with
        | error e =>
          simp only [step, handleSlice, hsel, if_neg htot, hp] at h
          exact absurd rfl h
        | ok parsed =>
          cases hb : buildSliceRequest
              (reconcile parsed (sortAsc s.selectedPages)) with
          | error e2 =>
            simp only [step, handleSlice, hsel, if_neg htot, hp, hb] at h
            exact absurd rfl h
          | ok req =>
            simp only [step, handleSlice, hsel, if_neg htot, hp, hb]
            simp
  · intro s d hd
    have hcond : some d = s.selectedDocumentId := hd.symm
    simp only [step, handleDeleteDocument, if_pos hcond]
    simp
  · intro s d hd
    simp only [step, handleSelectDocument, if_neg hd]
    simp

end PdfManager
